import Mathlib

/-!
Verification of the request-forwarding utility module
`packages/server/src/utilities/workerRequests.ts`.

The development shallowly embeds the two operations of that module:

* `request` (the spec's `buildRequest`): normalizes the supplied header
  representation into a single header container, injects the internal API
  key (only when no request context is supplied), copies the allow-listed
  inbound headers from a supplied context, applies the ambient tenant
  identifier, serializes a JSON body, and stamps the correlation header.
* `checkResponse`: parses a successful response's JSON body, and for an
  error status composes the `Unable to <label> - <detail>` failure and
  routes it through the context's error channel or a plain raised value.

JavaScript values that can appear as request/response bodies are embedded
as a `Json` inductive (numbers are modelled as integers: every numeric
literal exercised by this module is integral).  The node-fetch `Headers`
container is embedded as an insertion-ordered list of (lower-cased name,
value) pairs with `set`/`append`/`get` mirroring its observable behaviour.
-/

namespace WorkerRequests

/-! ## JSON values -/

mutual
/-- A JSON/JavaScript value, as produced by `JSON.parse` and consumed by
`JSON.stringify`.  Numbers are modelled as integers. -/
inductive Json where
  | null : Json
  | bool (b : Bool) : Json
  | num (n : Int) : Json
  | str (s : String) : Json
  | arr (xs : JsonList) : Json
  | obj (kvs : JsonObj) : Json
deriving DecidableEq
/-- A list of JSON values (array elements). -/
inductive JsonList where
  | nil : JsonList
  | cons (hd : Json) (tl : JsonList) : JsonList
deriving DecidableEq
/-- An ordered association list of JSON object members. -/
inductive JsonObj where
  | nil : JsonObj
  | cons (k : String) (v : Json) (tl : JsonObj) : JsonObj
deriving DecidableEq
end

/-- Number of elements of a JSON array. -/
def JsonList.length : JsonList → Nat
  | .nil => 0
  | .cons _ tl => 1 + tl.length

/-- Number of members of a JSON object (JavaScript object keys are unique,
so this is the length of `Object.keys`). -/
def JsonObj.length : JsonObj → Nat
  | .nil => 0
  | .cons _ _ tl => 1 + tl.length

/-- Property access `o[key]` on a JSON object. -/
def JsonObj.lookup : JsonObj → String → Option Json
  | .nil, _ => none
  | .cons k v tl, key => if k = key then some v else tl.lookup key

/-- Lower-case hexadecimal digit, as used by `JSON.stringify` escapes. -/
def hexDigit (n : Nat) : String :=
  String.singleton (Char.ofNat (if n < 10 then 48 + n else 87 + n))

/-- The opening curly brace character. -/
def curlyOpen : Char := Char.ofNat 123

/-- The closing curly brace character. -/
def curlyClose : Char := Char.ofNat 125

/-- `JSON.stringify` escaping of a single string character. -/
def escapeChar (c : Char) : String :=
  if c = '"' then "\\\""
  else if c = '\\' then "\\\\"
  else if c = '\n' then "\\n"
  else if c = '\r' then "\\r"
  else if c = '\t' then "\\t"
  else if c.toNat = 8 then "\\b"
  else if c.toNat = 12 then "\\f"
  else if c.toNat < 32 then "\\u00" ++ hexDigit (c.toNat / 16) ++ hexDigit (c.toNat % 16)
  else String.singleton c

/-- `JSON.stringify` escaping of a string body. -/
def escapeString (s : String) : String :=
  s.data.foldl (fun acc c => acc ++ escapeChar c) ""

mutual
/-- `JSON.stringify` (compact form, as called by `request`). -/
def Json.serialize : Json → String
  | .null => "null"
  | .bool true => "true"
  | .bool false => "false"
  | .num n => toString n
  | .str s => "\"" ++ escapeString s ++ "\""
  | .arr xs => "[" ++ JsonList.serializeItems xs ++ "]"
  | .obj kvs => "\x7b" ++ JsonObj.serializeItems kvs ++ "\x7d"
/-- Comma-separated serialization of array elements. -/
def JsonList.serializeItems : JsonList → String
  | .nil => ""
  | .cons hd .nil => Json.serialize hd
  | .cons hd (.cons h2 t2) =>
    Json.serialize hd ++ "," ++ JsonList.serializeItems (.cons h2 t2)
/-- Comma-separated serialization of object members. -/
def JsonObj.serializeItems : JsonObj → String
  | .nil => ""
  | .cons k v .nil => "\"" ++ escapeString k ++ "\":" ++ Json.serialize v
  | .cons k v (.cons k2 v2 t2) =>
    "\"" ++ escapeString k ++ "\":" ++ Json.serialize v ++ "," ++
      JsonObj.serializeItems (.cons k2 v2 t2)
end

mutual
/-- JavaScript string coercion `String(v)`, as applied by the template
literal composing the failure message in `checkResponse`. -/
def jsToString : Json → String
  | .null => "null"
  | .bool true => "true"
  | .bool false => "false"
  | .num n => toString n
  | .str s => s
  | .arr xs => jsJoinItems xs
  | .obj _ => "[object Object]"
/-- `Array.prototype.join(",")` with JavaScript coercion of the elements
(`null` elements coerce to the empty string). -/
def jsJoinItems : JsonList → String
  | .nil => ""
  | .cons hd .nil => if hd = Json.null then "" else jsToString hd
  | .cons hd (.cons h2 t2) =>
    (if hd = Json.null then "" else jsToString hd) ++ "," ++
      jsJoinItems (.cons h2 t2)
end

/-! ## JSON parsing (`JSON.parse` / `response.json()`) -/

/-- JSON whitespace. -/
def isWs (c : Char) : Bool :=
  c = ' ' || c = '\n' || c = '\t' || c = '\r'

/-- Drop leading JSON whitespace. -/
def skipWs : List Char → List Char
  | [] => []
  | c :: cs => if isWs c then skipWs cs else c :: cs

/-- Decimal digit test. -/
def isDigit (c : Char) : Bool :=
  48 ≤ c.toNat && c.toNat ≤ 57

/-- Split a leading run of decimal digits from its remainder. -/
def takeDigits : List Char → (List Char × List Char)
  | [] => ([], [])
  | c :: cs =>
    if isDigit c then
      let r := takeDigits cs
      (c :: r.1, r.2)
    else ([], c :: cs)

/-- Numeric value of a digit run. -/
def digitsToNat (ds : List Char) : Nat :=
  ds.foldl (fun acc c => acc * 10 + (c.toNat - 48)) 0

/-- Value of a hexadecimal digit character. -/
def hexVal (c : Char) : Option Nat :=
  if 48 ≤ c.toNat && c.toNat ≤ 57 then some (c.toNat - 48)
  else if 97 ≤ c.toNat && c.toNat ≤ 102 then some (c.toNat - 87)
  else if 65 ≤ c.toNat && c.toNat ≤ 70 then some (c.toNat - 55)
  else none

/-- Consume an expected literal character sequence. -/
def expectChars : List Char → List Char → Option (List Char)
  | cs, [] => some cs
  | [], _ :: _ => none
  | c :: cs, p :: ps => if c = p then expectChars cs ps else none

/-- Parse the body of a JSON string (after its opening quote), returning the
decoded string and the remainder after the closing quote.  Fuel-indexed so
the recursion is structural; `Json.parse` supplies sufficient fuel. -/
def parseStringBody : Nat → List Char → Option (String × List Char)
  | 0, _ => none
  | _, [] => none
  | fuel + 1, c :: cs =>
    if c = '"' then some ("", cs)
    else if c = '\\' then
      match cs with
      | [] => none
      | e :: cs2 =>
        let esc : Option (String × List Char) :=
          if e = '"' then some ("\"", cs2)
          else if e = '\\' then some ("\\", cs2)
          else if e = '/' then some ("/", cs2)
          else if e = 'n' then some ("\n", cs2)
          else if e = 't' then some ("\t", cs2)
          else if e = 'r' then some ("\r", cs2)
          else if e = 'b' then some (String.singleton (Char.ofNat 8), cs2)
          else if e = 'f' then some (String.singleton (Char.ofNat 12), cs2)
          else if e = 'u' then
            match cs2 with
            | h1 :: h2 :: h3 :: h4 :: cs3 =>
              match hexVal h1, hexVal h2, hexVal h3, hexVal h4 with
              | some a, some b, some c3, some d =>
                some (String.singleton (Char.ofNat (a * 4096 + b * 256 + c3 * 16 + d)), cs3)
              | _, _, _, _ => none
            | _ => none
          else none
        match esc with
        | none => none
        | some (pre, rest) =>
          match parseStringBody fuel rest with
          | some (s, rest2) => some (pre ++ s, rest2)
          | none => none
    else
      match parseStringBody fuel cs with
      | some (s, rest) => some (String.singleton c ++ s, rest)
      | none => none

mutual
/-- Parse one JSON value (fuel-indexed recursive-descent). -/
def parseVal : Nat → List Char → Option (Json × List Char)
  | 0, _ => none
  | fuel + 1, cs =>
    match skipWs cs with
    | [] => none
    | c :: rest =>
      if c = 'n' then (expectChars rest ['u', 'l', 'l']).map (fun r => (Json.null, r))
      else if c = 't' then (expectChars rest ['r', 'u', 'e']).map (fun r => (Json.bool true, r))
      else if c = 'f' then (expectChars rest ['a', 'l', 's', 'e']).map (fun r => (Json.bool false, r))
      else if c = '"' then (parseStringBody (fuel + 1) rest).map (fun p => (Json.str p.1, p.2))
      else if c = '-' then
        match takeDigits rest with
        | ([], _) => none
        | (ds, r) => some (Json.num (-(digitsToNat ds : Int)), r)
      else if isDigit c then
        match takeDigits rest with
        | (ds, r) => some (Json.num ((digitsToNat (c :: ds) : Int)), r)
      else if c = '[' then
        match skipWs rest with
        | ']' :: r => some (Json.arr .nil, r)
        | r => (parseItems fuel r).map (fun p => (Json.arr p.1, p.2))
      else if c = curlyOpen then
        match skipWs rest with
        | [] => none
        | d :: r =>
          if d = curlyClose then some (Json.obj .nil, r)
          else (parseFields fuel (d :: r)).map (fun p => (Json.obj p.1, p.2))
      else none
/-- Parse the non-empty element list of a JSON array, up to and including
the closing bracket. -/
def parseItems : Nat → List Char → Option (JsonList × List Char)
  | 0, _ => none
  | fuel + 1, cs =>
    match parseVal fuel cs with
    | none => none
    | some (v, rest) =>
      match skipWs rest with
      | ',' :: r =>
        match parseItems fuel r with
        | some (tl, rest2) => some (.cons v tl, rest2)
        | none => none
      | ']' :: r => some (.cons v .nil, r)
      | _ => none
/-- Parse the non-empty member list of a JSON object, up to and including
the closing brace. -/
def parseFields : Nat → List Char → Option (JsonObj × List Char)
  | 0, _ => none
  | fuel + 1, cs =>
    match skipWs cs with
    | '"' :: r =>
      match parseStringBody (fuel + 1) r with
      | none => none
      | some (k, rest) =>
        match skipWs rest with
        | ':' :: r2 =>
          match parseVal fuel r2 with
          | none => none
          | some (v, rest2) =>
            match skipWs rest2 with
            | [] => none
            | d :: r3 =>
              if d = ',' then
                match parseFields fuel r3 with
                | some (tl, rest3) => some (.cons k v tl, rest3)
                | none => none
              else if d = curlyClose then some (.cons k v .nil, r3)
              else none
        | _ => none
    | _ => none
end

/-- `JSON.parse`: parse a complete JSON document, failing (as the
JavaScript function throws) on trailing garbage or malformed input. -/
def Json.parse (s : String) : Option Json :=
  match parseVal (s.length + 1) s.data with
  | some (j, rest) => if skipWs rest = [] then some j else none
  | none => none

/-! ## The node-fetch `Headers` container

node-fetch stores header entries case-insensitively (names are compared
after ASCII lower-casing); we embed a container as an insertion-ordered
list of lower-cased-name/value pairs.  `set` replaces every value held
under a name, `append` adds a further value, `get` joins the values held
under a name with a comma-space separator. -/

/-- A header container value. -/
abbrev HeadersL : Type := List (String × String)

/-- Header-name normalization (ASCII lower-casing, as node-fetch applies
to every stored or queried name). -/
def hname (s : String) : String :=
  String.mk (s.data.map Char.toLower)

/-- `Headers.prototype.append`. -/
def happend (h : HeadersL) (n v : String) : HeadersL :=
  h ++ [(hname n, v)]

/-- `Headers.prototype.set`: drop every value held under the name, then
record the single new value. -/
def hset (h : HeadersL) (n v : String) : HeadersL :=
  h.filter (fun p => p.1 ≠ hname n) ++ [(hname n, v)]

/-- The values held under a name, in insertion order. -/
def hvals (h : HeadersL) (n : String) : List String :=
  (h.filter (fun p => p.1 = hname n)).map Prod.snd

/-- The comma-space join performed by `Headers.prototype.get`. -/
def joinVals : List String → String
  | [] => ""
  | [v] => v
  | v :: r1 :: r2 => v ++ ", " ++ joinVals (r1 :: r2)

/-- `Headers.prototype.get`: `none` when no value is held under the name,
otherwise the joined values. -/
def hget (h : HeadersL) (n : String) : Option String :=
  match hvals h n with
  | [] => none
  | vs => some (joinVals vs)

/-- The shapes a `HeadersInit` argument can take: a pre-built `Headers`
container, an array of name/value pairs, or a plain-object record (whose
keys, being JavaScript object keys, are unique). -/
inductive HeadersInit where
  | hdrs (h : HeadersL)
  | pairs (l : List (String × String))
  | record (l : List (String × String))
deriving DecidableEq

/-- `ensureHeadersIsObject` (workerRequests.ts:19-39): return a pre-built
container unchanged; otherwise build a fresh container, appending each
supplied entry (pair-array entries in order; record entries in key order). -/
def ensureHeadersIsObject : Option HeadersInit → HeadersL
  | some (.hdrs h) => h
  | none => []
  | some (.pairs l) => l.foldl (fun acc kv => happend acc kv.1 kv.2) []
  | some (.record l) => l.foldl (fun acc kv => happend acc kv.1 kv.2) []

/-! ## The `request` builder -/

/-- An inbound header value on a Koa context: a single string or a list of
strings (Node's `IncomingHttpHeaders`). -/
inductive HVal where
  | str (s : String)
  | list (l : List String)
deriving DecidableEq

/-- The part of a Koa `Ctx` read by `request`: its inbound headers
(absent when the context carries none). -/
structure Ctx where
  headers : Option (List (String × HVal))
deriving DecidableEq

/-- Modelled from the spec: the `constants.Header` allow-list lives in
`@budibase/backend-core`, outside the provided sources; the spec describes
it as a fixed enumerated set of framework-internal header names (tenant
ID, API key, correlation ID, and similar).  The API-key header name. -/
def Header.API_KEY : String := "x-budibase-api-key"

/-- Modelled from the spec (see `Header.API_KEY`): the tenant-ID header
name. -/
def Header.TENANT_ID : String := "x-budibase-tenant-id"

/-- Modelled from the spec (see `Header.API_KEY`): the correlation-ID
header name. -/
def Header.CORRELATION_ID : String := "x-budibase-correlation-id"

/-- Modelled from the spec (see `Header.API_KEY`): `Object.values` of the
`constants.Header` enumeration — the fixed header allow-list iterated by
the context-copying loop. -/
def Header.allowList : List String :=
  [Header.API_KEY, Header.TENANT_ID, Header.CORRELATION_ID]

/-- Modelled from the spec: the ambient collaborators read by `request` —
`coreEnv.INTERNAL_API_KEY` (the empty string when unset, matching its
JavaScript falsiness), the tenancy module's currently-established tenant
identifier (`isTenantIdSet`/`getTenantId`), and the correlation facility's
current identifier (`logging.correlation.setHeader` stamps it when one
exists).  All three live in `@budibase/backend-core`, outside the provided
sources. -/
structure Ambient where
  INTERNAL_API_KEY : String
  tenantId : Option String
  correlationId : Option String
deriving DecidableEq

/-- The fields of the `RequestInit & \x7b ctx?: Ctx \x7d` argument that
`request` reads or writes. -/
structure ReqInit where
  method : Option String
  headers : Option HeadersInit
  body : Option Json
  ctx : Option Ctx
deriving DecidableEq

/-- The returned descriptor: the `ctx` reference has been deleted, the
headers are a built container, and the body (when kept) is serialized
text. -/
structure RequestResult where
  method : Option String
  headers : HeadersL
  body : Option Json
deriving DecidableEq

/-- JavaScript truthiness of a body value (`request.body && ...`). -/
def bodyTruthy : Json → Bool
  | .null => false
  | .bool b => b
  | .num n => n != 0
  | .str s => s != ""
  | .arr _ => true
  | .obj _ => true

/-- `Object.keys(request.body).length`: member count for objects, element
count for arrays, character count for strings, zero for primitives. -/
def bodyKeysLen : Json → Nat
  | .null => 0
  | .bool _ => 0
  | .num _ => 0
  | .str s => s.length
  | .arr xs => xs.length
  | .obj kvs => kvs.length

/-- `typeof request.body === "object"`. -/
def bodyIsObjectType : Json → Bool
  | .null => true
  | .arr _ => true
  | .obj _ => true
  | _ => false

/-- workerRequests.ts:44-48 / 48-66: with no context, attach the configured
internal API key (when one is set); with a context carrying inbound
headers, copy the allow-listed headers over. -/
def copyHeader (inbound : List (String × HVal)) (acc : HeadersL) (header : String) : HeadersL :=
  match inbound.lookup header with
  | none => acc
  | some (.str v) => hset acc header v
  | some (.list vs) => vs.foldl (fun a v => happend a header v) acc

/-- The context-copying loop (workerRequests.ts:52-66): for every name in
the allow-list, skip it when absent from the inbound headers, append each
value of a list-valued header, and `set` a string-valued one. -/
def copyCtxHeaders (inbound : List (String × HVal)) (h : HeadersL) : HeadersL :=
  Header.allowList.foldl (copyHeader inbound) h

/-- workerRequests.ts:44-66: the API-key / context-headers branch. -/
def apiKeyOrCtxStep (amb : Ambient) (ctx : Option Ctx) (h : HeadersL) : HeadersL :=
  match ctx with
  | none =>
    if amb.INTERNAL_API_KEY ≠ "" then hset h Header.API_KEY amb.INTERNAL_API_KEY else h
  | some c =>
    match c.headers with
    | some inbound => copyCtxHeaders inbound h
    | none => h

/-- workerRequests.ts:68-71: apply tenancy when a tenant identifier is
established in the ambient execution context. -/
def tenantStep (amb : Ambient) (h : HeadersL) : HeadersL :=
  match amb.tenantId with
  | some t => hset h Header.TENANT_ID t
  | none => h

/-- workerRequests.ts:72-80: for a truthy body with at least one key, set
the JSON content type and serialize object-typed bodies (string bodies are
forwarded verbatim); otherwise delete the body. -/
def bodyStep (b : Option Json) (h : HeadersL) : HeadersL × Option Json :=
  match b with
  | some bd =>
    if bodyTruthy bd && bodyKeysLen bd != 0 then
      (hset h "Content-Type" "application/json",
       some (if bodyIsObjectType bd then Json.str (Json.serialize bd) else bd))
    else (h, none)
  | none => (h, none)

/-- Modelled from the spec: `logging.correlation.setHeader` (from
`@budibase/backend-core`, outside the provided sources) stamps the
correlation-ID header with the ambient correlation identifier when one
exists. -/
def correlationStep (amb : Ambient) (h : HeadersL) : HeadersL :=
  match amb.correlationId with
  | some cid => hset h Header.CORRELATION_ID cid
  | none => h

/-- `request` (workerRequests.ts:41-87), the spec's `buildRequest`. -/
def request (amb : Ambient) (r : ReqInit) : RequestResult :=
  let h0 := ensureHeadersIsObject r.headers
  let h1 := apiKeyOrCtxStep amb r.ctx h0
  let h2 := tenantStep amb h1
  let bs := bodyStep r.body h2
  { method := r.method, headers := correlationStep amb bs.1, body := bs.2 }

/-! ## `checkResponse` -/

/-- The part of a node-fetch `Response` read by `checkResponse`: its
status, its headers, and its raw body text (`.json()` parses that text,
`.text()` returns it). -/
structure Response where
  status : Nat
  headers : HeadersL
  bodyText : String
deriving DecidableEq

/-- The observable outcome of `checkResponse`: the parsed success body, a
failure signalled through the context's error channel (`ctx.throw`), a
plain raised failure message, a propagated JSON parse failure, or the
TypeError thrown by reading `.message` off a whole-body JSON `null`
(`error.message` has no optional chaining in the source). -/
inductive CheckResult where
  | ok (body : Json)
  | ctxThrow (status : Nat) (msg : String)
  | throwMsg (msg : String)
  | jsonParseError
  | nullMessageTypeError
deriving DecidableEq

/-- `String.prototype.startsWith` over character lists. -/
def charsStartWith : List Char → List Char → Bool
  | _, [] => true
  | [], _ :: _ => false
  | c :: cs, p :: ps => c = p && charsStartWith cs ps

/-- Substring containment over character lists. -/
def charsContain : List Char → List Char → Bool
  | [], ps => ps.isEmpty
  | c :: cs, ps => charsStartWith (c :: cs) ps || charsContain cs ps

/-- `String.prototype.includes`. -/
def strIncludes (s sub : String) : Bool :=
  charsContain s.data sub.data

/-- `response.headers.get("content-type")?.includes("json")` coerced to a
branch condition (a missing content-type header is falsy). -/
def respCTHasJson (resp : Response) : Bool :=
  match hget resp.headers "content-type" with
  | some ct => strIncludes ct "json"
  | none => false

/-- `error.message ?? JSON.stringify(error)` followed by the template
literal's string coercion.  Reading `.message` off a `null` body throws a
TypeError (the access has no optional chaining), modelled as `none`;
otherwise the detail is the coerced `message` member when it exists and is
not nullish (property access on the other primitives merely yields
`undefined`), and the serialized whole body when it does not. -/
def errDetail (error : Json) : Option String :=
  match error with
  | .null => none
  | .obj kvs =>
    some (match kvs.lookup "message" with
      | none => Json.serialize error
      | some Json.null => Json.serialize error
      | some v => jsToString v)
  | _ => some (Json.serialize error)

/-- `checkResponse` (workerRequests.ts:89-110).  The optional `ctx` is
only tested for presence, so it is embedded as `Option Unit`.  The detail
computation yields `none` when `response.json()` throws a parse failure
and `some none` when the `.message` access throws the TypeError. -/
def checkResponse (resp : Response) (errorMsg : String) (ctx : Option Unit) : CheckResult :=
  if 300 ≤ resp.status then
    match (if respCTHasJson resp then (Json.parse resp.bodyText).map errDetail
           else some (some resp.bodyText)) with
    | none => .jsonParseError
    | some none => .nullMessageTypeError
    | some (some detail) =>
      let msg := "Unable to " ++ errorMsg ++ " - " ++ detail
      match ctx with
      | some _ => .ctxThrow (if resp.status = 0 then 500 else resp.status) msg
      | none => .throwMsg msg
  else
    match Json.parse resp.bodyText with
    | some j => .ok j
    | none => .jsonParseError

/-! ## Header-container lemmas -/

theorem hvals_happend (h : HeadersL) (a v n : String) :
    hvals (happend h a v) n = hvals h n ++ if hname a = hname n then [v] else [] := by
  by_cases hc : hname a = hname n <;>
    simp [hvals, happend, List.filter_append, hc]

theorem filter_and_not_self (h : HeadersL) (x : String) :
    h.filter (fun p => decide (p.1 = x) && !decide (p.1 = x)) = [] := by
  induction h with
  | nil => rfl
  | cons p t ih => by_cases hp : p.1 = x <;> simp [hp, ih]

theorem filter_and_not_of_ne (h : HeadersL) (x y : String) (hxy : y ≠ x) :
    h.filter (fun p => decide (p.1 = y) && !decide (p.1 = x)) =
      h.filter (fun p => p.1 = y) := by
  induction h with
  | nil => rfl
  | cons p t ih =>
    by_cases hq : p.1 = y
    · have hx : p.1 ≠ x := hq ▸ hxy
      simp [List.filter_cons, hq, hx, ih, hxy]
    · simp [List.filter_cons, hq, ih]

theorem hvals_hset_eq (h : HeadersL) (a v n : String) (hc : hname a = hname n) :
    hvals (hset h a v) n = [v] := by
  simp [hvals, hset, List.filter_append, hc, List.filter_filter, filter_and_not_self]

theorem hvals_hset_ne (h : HeadersL) (a v n : String) (hc : hname a ≠ hname n) :
    hvals (hset h a v) n = hvals h n := by
  simp [hvals, hset, List.filter_append, hc, List.filter_filter,
    filter_and_not_of_ne h (hname a) (hname n) (Ne.symm hc)]

theorem hget_nil (h : HeadersL) (n : String) (hv : hvals h n = []) : hget h n = none := by
  simp [hget, hv]

theorem hget_single (h : HeadersL) (n v : String) (hv : hvals h n = [v]) :
    hget h n = some v := by
  simp [hget, hv, joinVals]

theorem hvals_foldl_happend (vs : List String) (acc : HeadersL) (a n : String) :
    hvals (vs.foldl (fun h v => happend h a v) acc) n =
      hvals acc n ++ if hname a = hname n then vs else [] := by
  induction vs generalizing acc with
  | nil => by_cases hc : hname a = hname n <;> simp [hc]
  | cons v vs ih =>
    rw [List.foldl_cons, ih, hvals_happend]
    by_cases hc : hname a = hname n <;> simp [hc]

theorem hvals_copyHeader_ne (ib : List (String × HVal)) (acc : HeadersL)
    (header n : String) (hne : hname header ≠ hname n) :
    hvals (copyHeader ib acc header) n = hvals acc n := by
  unfold copyHeader
  cases hlk : ib.lookup header with
  | none => rfl
  | some v =>
    cases v with
    | str s => exact hvals_hset_ne _ _ _ _ hne
    | list vs => rw [hvals_foldl_happend]; simp [hne]

theorem hvals_copyHeader_self (ib : List (String × HVal)) (acc : HeadersL)
    (header : String) :
    hvals (copyHeader ib acc header) header =
      match ib.lookup header with
      | none => hvals acc header
      | some (.str v) => [v]
      | some (.list vs) => hvals acc header ++ vs := by
  unfold copyHeader
  cases hlk : ib.lookup header with
  | none => rfl
  | some v =>
    cases v with
    | str s => exact hvals_hset_eq _ _ _ _ rfl
    | list vs => rw [hvals_foldl_happend]; simp

theorem copyCtxHeaders_eq (ib : List (String × HVal)) (h : HeadersL) :
    copyCtxHeaders ib h =
      copyHeader ib (copyHeader ib (copyHeader ib h Header.API_KEY) Header.TENANT_ID)
        Header.CORRELATION_ID := rfl

theorem hvals_tenantStep_ne (amb : Ambient) (h : HeadersL) (n : String)
    (hne : hname Header.TENANT_ID ≠ hname n) :
    hvals (tenantStep amb h) n = hvals h n := by
  unfold tenantStep
  cases amb.tenantId with
  | none => rfl
  | some t => exact hvals_hset_ne _ _ _ _ hne

theorem hvals_correlationStep_ne (amb : Ambient) (h : HeadersL) (n : String)
    (hne : hname Header.CORRELATION_ID ≠ hname n) :
    hvals (correlationStep amb h) n = hvals h n := by
  unfold correlationStep
  cases amb.correlationId with
  | none => rfl
  | some cid => exact hvals_hset_ne _ _ _ _ hne

theorem hvals_bodyStep_fst_ne (b : Option Json) (h : HeadersL) (n : String)
    (hne : hname "Content-Type" ≠ hname n) :
    hvals (bodyStep b h).1 n = hvals h n := by
  unfold bodyStep
  cases b with
  | none => rfl
  | some bd =>
    dsimp only
    split
    · exact hvals_hset_ne _ _ _ _ hne
    · rfl

theorem foldl_happend_eq (l : List (String × String)) (acc : HeadersL) :
    l.foldl (fun h kv => happend h kv.1 kv.2) acc =
      acc ++ l.map (fun kv => (hname kv.1, kv.2)) := by
  induction l generalizing acc with
  | nil => simp
  | cons kv t ih =>
    rw [List.foldl_cons, ih]
    simp [happend, List.append_assoc]

/-! ## Claims -/

/-- C1 (counterexample): the claim promises a composed failure for every
response with status ≥ 300, but a JSON-typed response whose whole body is
`null` crashes with a TypeError on the `.message` access before any
message is composed — in particular the message the claim's detail rule
predicts (`Unable to get user - null`, the serialized whole body) is never
raised. -/
theorem checkResponse_error_path_c1_counterexample :
    checkResponse ⟨404, [("content-type", "application/json")], "null"⟩
        "get user" none = CheckResult.nullMessageTypeError ∧
    checkResponse ⟨404, [("content-type", "application/json")], "null"⟩
        "get user" none ≠
      CheckResult.throwMsg "Unable to get user - null" := by
  exact ⟨by decide, by decide⟩

/-- C1 (amended): for every response with status ≥ 300, whenever the
detail value is determined without throwing — the parsed JSON body's
`message` member (the serialized whole body when that member is absent or
nullish) when the content type indicates JSON and the body parses to a
value whose `.message` access does not throw (every value but `null`), and
the raw response text otherwise — `checkResponse` composes exactly
`Unable to <label> - <detail>`; with a context supplied the failure is
signalled through the context's error channel with the response's status
code, and without one the composed message is raised as a plain failure
value.  (A JSON-typed unparseable body propagates the parse failure, and a
JSON-typed `null` body throws the TypeError, before any composition.) -/
theorem checkResponse_error_path_c1 (resp : Response) (label : String)
    (ctx : Option Unit) (hs : 300 ≤ resp.status) (d : String)
    (hd : (if respCTHasJson resp then (Json.parse resp.bodyText).map errDetail
           else some (some resp.bodyText)) = some (some d)) :
    checkResponse resp label ctx =
      match ctx with
      | some _ => .ctxThrow resp.status ("Unable to " ++ label ++ " - " ++ d)
      | none => .throwMsg ("Unable to " ++ label ++ " - " ++ d) := by
  have h0 : resp.status ≠ 0 := by omega
  unfold checkResponse
  rw [if_pos hs, hd]
  cases ctx with
  | none => rfl
  | some u => simp [h0]

theorem checkResponse_error_path_c1_witness :
    300 ≤ (404 : Nat) ∧
    (if respCTHasJson ⟨404, [("content-type", "application/json")],
          "\x7b\"message\": \"not found\"\x7d"⟩
       then (Json.parse "\x7b\"message\": \"not found\"\x7d").map errDetail
       else some (some "\x7b\"message\": \"not found\"\x7d")) = some (some "not found") ∧
    checkResponse ⟨404, [("content-type", "application/json")],
        "\x7b\"message\": \"not found\"\x7d"⟩ "get user" (some ()) =
      CheckResult.ctxThrow 404 "Unable to get user - not found" :=
  ⟨by decide, by decide,
    checkResponse_error_path_c1 _ "get user" (some ()) (by decide) "not found" (by decide)⟩

/-- C7: for every response with status < 300, `checkResponse` parses the
body as JSON and returns the parsed value unchanged; when the body is not
valid JSON the parse failure propagates instead of being recovered. -/
theorem checkResponse_success_path_c7 (resp : Response) (label : String)
    (ctx : Option Unit) (hs : resp.status < 300) :
    checkResponse resp label ctx =
      match Json.parse resp.bodyText with
      | some j => CheckResult.ok j
      | none => CheckResult.jsonParseError := by
  unfold checkResponse
  rw [if_neg (by omega)]

theorem checkResponse_success_path_c7_witness :
    (200 : Nat) < 300 ∧
    checkResponse ⟨200, [("content-type", "application/json")], "\x7b\"id\": 1\x7d"⟩
        "get user" none = CheckResult.ok (.obj (.cons "id" (.num 1) .nil)) ∧
    checkResponse ⟨200, [("content-type", "application/json")], "not json"⟩
        "get user" none = CheckResult.jsonParseError :=
  ⟨by decide,
    (checkResponse_success_path_c7 _ "get user" none (by decide)).trans (by decide),
    (checkResponse_success_path_c7 _ "get user" none (by decide)).trans (by decide)⟩

/-- C3: whenever a tenant identifier is established in the ambient
execution context, the built descriptor's headers carry the tenant-ID
header set to exactly that identifier — for every input, so independently
of any supplied context or its inbound headers, over which the tenant
assignment takes precedence. -/
theorem request_tenant_header_c3 (amb : Ambient) (r : ReqInit) (t : String)
    (ht : amb.tenantId = some t) :
    hget (request amb r).headers Header.TENANT_ID = some t := by
  apply hget_single
  dsimp only [request]
  rw [hvals_correlationStep_ne _ _ _ (by decide),
      hvals_bodyStep_fst_ne _ _ _ (by decide)]
  unfold tenantStep
  rw [ht]
  exact hvals_hset_eq _ _ _ _ rfl

theorem request_tenant_header_c3_witness :
    (⟨"", some "tenant1", none⟩ : Ambient).tenantId = some "tenant1" ∧
    hget (request ⟨"", some "tenant1", none⟩
        ⟨none, none, none,
          some ⟨some [(Header.TENANT_ID, HVal.str "other")]⟩⟩).headers
      Header.TENANT_ID = some "tenant1" :=
  ⟨rfl, request_tenant_header_c3 _ _ "tenant1" rfl⟩

/-- C6: on a call with no request context, a configured (non-empty)
internal API key is attached under the API-key header name; with no key
configured (and no API-key entry among the normalized base headers) the
resulting headers carry no API-key header. -/
theorem request_no_ctx_api_key_c6 (amb : Ambient) (r : ReqInit)
    (hc : r.ctx = none) :
    (amb.INTERNAL_API_KEY ≠ "" →
      hget (request amb r).headers Header.API_KEY = some amb.INTERNAL_API_KEY) ∧
    (amb.INTERNAL_API_KEY = "" →
      hvals (ensureHeadersIsObject r.headers) Header.API_KEY = [] →
      hget (request amb r).headers Header.API_KEY = none) := by
  constructor
  · intro hk
    apply hget_single
    dsimp only [request]
    rw [hvals_correlationStep_ne _ _ _ (by decide),
        hvals_bodyStep_fst_ne _ _ _ (by decide),
        hvals_tenantStep_ne _ _ _ (by decide)]
    unfold apiKeyOrCtxStep
    rw [hc]
    dsimp only
    rw [if_pos hk]
    exact hvals_hset_eq _ _ _ _ rfl
  · intro hk h0
    apply hget_nil
    dsimp only [request]
    rw [hvals_correlationStep_ne _ _ _ (by decide),
        hvals_bodyStep_fst_ne _ _ _ (by decide),
        hvals_tenantStep_ne _ _ _ (by decide)]
    unfold apiKeyOrCtxStep
    rw [hc]
    dsimp only
    rw [if_neg (by simp [hk])]
    exact h0

theorem request_no_ctx_api_key_c6_witness :
    ((⟨"secret", none, none⟩ : Ambient).INTERNAL_API_KEY ≠ "" ∧
      hget (request ⟨"secret", none, none⟩ ⟨none, none, none, none⟩).headers
        Header.API_KEY = some "secret") ∧
    (hvals (ensureHeadersIsObject (none : Option HeadersInit)) Header.API_KEY = [] ∧
      hget (request ⟨"", none, none⟩ ⟨none, none, none, none⟩).headers
        Header.API_KEY = none) :=
  ⟨⟨by decide, (request_no_ctx_api_key_c6 _ _ rfl).1 (by decide)⟩,
    ⟨rfl, (request_no_ctx_api_key_c6 _ _ rfl).2 rfl rfl⟩⟩

/-- C2: a present, non-empty object body makes the built descriptor carry
`Content-Type: application/json` and a body equal to the JSON
serialization of the input body; an absent body or an empty object body
leaves the descriptor with no body field. -/
theorem request_body_serialization_c2 (amb : Ambient) (r : ReqInit) :
    (∀ kvs, kvs ≠ JsonObj.nil → r.body = some (Json.obj kvs) →
      hget (request amb r).headers "Content-Type" = some "application/json" ∧
      (request amb r).body = some (Json.str (Json.serialize (Json.obj kvs)))) ∧
    ((r.body = none ∨ r.body = some (Json.obj .nil)) →
      (request amb r).body = none) := by
  constructor
  · intro kvs hk hb
    have hcond : (bodyTruthy (Json.obj kvs) && bodyKeysLen (Json.obj kvs) != 0) = true := by
      cases kvs with
      | nil => exact absurd rfl hk
      | cons k v tl => simp [bodyTruthy, bodyKeysLen, JsonObj.length]
    constructor
    · apply hget_single
      dsimp only [request]
      rw [hvals_correlationStep_ne _ _ _ (by decide), hb]
      unfold bodyStep
      dsimp only
      rw [if_pos hcond]
      exact hvals_hset_eq _ _ _ _ rfl
    · dsimp only [request]
      rw [hb]
      unfold bodyStep
      dsimp only
      rw [if_pos hcond]
      rfl
  · intro hb
    rcases hb with hb | hb <;>
    · dsimp only [request]
      rw [hb]
      rfl

theorem request_body_serialization_c2_witness :
    (JsonObj.cons "id" (.num 1) .nil ≠ JsonObj.nil ∧
      hget (request ⟨"", none, none⟩
          ⟨none, none, some (Json.obj (.cons "id" (.num 1) .nil)), none⟩).headers
        "Content-Type" = some "application/json" ∧
      (request ⟨"", none, none⟩
          ⟨none, none, some (Json.obj (.cons "id" (.num 1) .nil)), none⟩).body =
        some (Json.str "\x7b\"id\":1\x7d")) ∧
    ((request ⟨"", none, none⟩ ⟨none, none, none, none⟩).body = none ∧
      (request ⟨"", none, none⟩ ⟨none, none, some (Json.obj .nil), none⟩).body = none) :=
  ⟨⟨by decide,
      ((request_body_serialization_c2 _ _).1 (JsonObj.cons "id" (.num 1) .nil)
          (by decide) rfl).1,
      (((request_body_serialization_c2 _ _).1 (JsonObj.cons "id" (.num 1) .nil)
          (by decide) rfl).2).trans (by decide)⟩,
    ⟨(request_body_serialization_c2 _ _).2 (Or.inl rfl),
      (request_body_serialization_c2 _ _).2 (Or.inr rfl)⟩⟩

/-- C10: a present non-empty string body (for example pre-serialized JSON)
is forwarded verbatim — not re-serialized — while `Content-Type` is still
set to `application/json`; object-typed bodies (arrays included) are the
ones replaced by their JSON serialization. -/
theorem request_string_body_verbatim_c10 (amb : Ambient) (r : ReqInit) :
    (∀ s, r.body = some (Json.str s) → s ≠ "" →
      (request amb r).body = some (Json.str s) ∧
      hget (request amb r).headers "Content-Type" = some "application/json") ∧
    (∀ xs, r.body = some (Json.arr xs) → xs ≠ JsonList.nil →
      (request amb r).body = some (Json.str (Json.serialize (Json.arr xs)))) := by
  constructor
  · intro s hb hs
    have hlen : s.length ≠ 0 := by
      cases s with
      | mk data =>
        cases data with
        | nil => exact absurd rfl hs
        | cons c cs => simp [String.length]
    have hcond : (bodyTruthy (Json.str s) && bodyKeysLen (Json.str s) != 0) = true := by
      simp [bodyTruthy, bodyKeysLen, hs, hlen]
    constructor
    · dsimp only [request]
      rw [hb]
      unfold bodyStep
      dsimp only
      rw [if_pos hcond]
      rfl
    · apply hget_single
      dsimp only [request]
      rw [hvals_correlationStep_ne _ _ _ (by decide), hb]
      unfold bodyStep
      dsimp only
      rw [if_pos hcond]
      exact hvals_hset_eq _ _ _ _ rfl
  · intro xs hb hx
    have hcond : (bodyTruthy (Json.arr xs) && bodyKeysLen (Json.arr xs) != 0) = true := by
      cases xs with
      | nil => exact absurd rfl hx
      | cons hd tl => simp [bodyTruthy, bodyKeysLen, JsonList.length]
    dsimp only [request]
    rw [hb]
    unfold bodyStep
    dsimp only
    rw [if_pos hcond]
    rfl

theorem request_string_body_verbatim_c10_witness :
    ("\x7b\"a\":1\x7d" ≠ "" ∧
      (request ⟨"", none, none⟩
          ⟨none, none, some (Json.str "\x7b\"a\":1\x7d"), none⟩).body =
        some (Json.str "\x7b\"a\":1\x7d") ∧
      hget (request ⟨"", none, none⟩
          ⟨none, none, some (Json.str "\x7b\"a\":1\x7d"), none⟩).headers
        "Content-Type" = some "application/json") ∧
    (JsonList.cons (.num 1) .nil ≠ JsonList.nil ∧
      (request ⟨"", none, none⟩
          ⟨none, none, some (Json.arr (.cons (.num 1) .nil)), none⟩).body =
        some (Json.str "[1]")) :=
  ⟨⟨by decide,
      ((request_string_body_verbatim_c10 _ _).1 "\x7b\"a\":1\x7d" rfl (by decide)).1,
      ((request_string_body_verbatim_c10 _ _).1 "\x7b\"a\":1\x7d" rfl (by decide)).2⟩,
    ⟨by decide,
      ((request_string_body_verbatim_c10 _ _).2 (JsonList.cons (.num 1) .nil) rfl
          (by decide)).trans (by decide)⟩⟩

/-- C9: whenever a request context is supplied — even one carrying no
inbound headers — the configured internal API key plays no part in the
built descriptor (the result coincides with the result under an
unconfigured key), and with no inbound headers (and no API-key entry among
the normalized base headers) the result carries no API-key header. -/
theorem request_ctx_no_api_key_c9 (amb : Ambient) (r : ReqInit) (c : Ctx)
    (hc : r.ctx = some c) :
    request amb r = request ⟨"", amb.tenantId, amb.correlationId⟩ r ∧
    (c.headers = none →
      hvals (ensureHeadersIsObject r.headers) Header.API_KEY = [] →
      hget (request amb r).headers Header.API_KEY = none) := by
  constructor
  · simp only [request, apiKeyOrCtxStep, hc]
    rfl
  · intro hch h0
    apply hget_nil
    dsimp only [request]
    rw [hvals_correlationStep_ne _ _ _ (by decide),
        hvals_bodyStep_fst_ne _ _ _ (by decide),
        hvals_tenantStep_ne _ _ _ (by decide)]
    unfold apiKeyOrCtxStep
    rw [hc]
    dsimp only
    rw [hch]
    exact h0

theorem request_ctx_no_api_key_c9_witness :
    (⟨none, none, none, some ⟨none⟩⟩ : ReqInit).ctx = some ⟨none⟩ ∧
    request ⟨"secret", none, none⟩ ⟨none, none, none, some ⟨none⟩⟩ =
      request ⟨"", none, none⟩ ⟨none, none, none, some ⟨none⟩⟩ ∧
    hget (request ⟨"secret", none, none⟩
        ⟨none, none, none, some ⟨none⟩⟩).headers Header.API_KEY = none :=
  ⟨rfl, (request_ctx_no_api_key_c9 ⟨"secret", none, none⟩ _ ⟨none⟩ rfl).1,
    (request_ctx_no_api_key_c9 ⟨"secret", none, none⟩ _ ⟨none⟩ rfl).2 rfl rfl⟩

/-- C4: the context-copying loop copies exactly the allow-listed header
names present in the inbound headers — the values held under any name
outside the allow-list are left untouched, so non-allow-listed inbound
headers are never copied — and a list-valued inbound header has each value
appended separately (preserving what the container already held) rather
than overwriting, while a string-valued one is set. -/
theorem request_ctx_allowlist_copy_c4 (ib : List (String × HVal)) (h : HeadersL)
    (n : String) :
    (hname n ∉ Header.allowList → hvals (copyCtxHeaders ib h) n = hvals h n) ∧
    (n ∈ Header.allowList →
      hvals (copyCtxHeaders ib h) n =
        match ib.lookup n with
        | none => hvals h n
        | some (.str v) => [v]
        | some (.list vs) => hvals h n ++ vs) := by
  constructor
  · intro hn
    simp only [Header.allowList, List.mem_cons, List.not_mem_nil, or_false, not_or] at hn
    obtain ⟨hnA, hnT, hnC⟩ := hn
    have eA : hname Header.API_KEY = Header.API_KEY := by decide
    have eT : hname Header.TENANT_ID = Header.TENANT_ID := by decide
    have eC : hname Header.CORRELATION_ID = Header.CORRELATION_ID := by decide
    rw [copyCtxHeaders_eq,
        hvals_copyHeader_ne _ _ _ _ (by rw [eC]; exact fun he => hnC he.symm),
        hvals_copyHeader_ne _ _ _ _ (by rw [eT]; exact fun he => hnT he.symm),
        hvals_copyHeader_ne _ _ _ _ (by rw [eA]; exact fun he => hnA he.symm)]
  · intro hn
    simp only [Header.allowList, List.mem_cons, List.not_mem_nil, or_false] at hn
    rcases hn with rfl | rfl | rfl
    · rw [copyCtxHeaders_eq,
          hvals_copyHeader_ne _ _ _ _ (by decide),
          hvals_copyHeader_ne _ _ _ _ (by decide),
          hvals_copyHeader_self]
    · rw [copyCtxHeaders_eq,
          hvals_copyHeader_ne _ _ _ _ (by decide),
          hvals_copyHeader_self,
          hvals_copyHeader_ne _ _ _ _ (by decide)]
    · rw [copyCtxHeaders_eq,
          hvals_copyHeader_self,
          hvals_copyHeader_ne _ _ _ _ (by decide),
          hvals_copyHeader_ne _ _ _ _ (by decide)]

theorem request_ctx_allowlist_copy_c4_witness :
    (hname "x-evil" ∉ Header.allowList ∧
      hvals (copyCtxHeaders
          [("x-evil", HVal.str "e"), ("x-budibase-api-key", HVal.list ["k1", "k2"])]
          [(Header.API_KEY, "base")]) "x-evil" =
        hvals [(Header.API_KEY, "base")] "x-evil") ∧
    ("x-budibase-api-key" ∈ Header.allowList ∧
      hvals (copyCtxHeaders
          [("x-evil", HVal.str "e"), ("x-budibase-api-key", HVal.list ["k1", "k2"])]
          [(Header.API_KEY, "base")]) "x-budibase-api-key" =
        ["base", "k1", "k2"]) :=
  ⟨⟨by decide,
      (request_ctx_allowlist_copy_c4 _ _ "x-evil").1 (by decide)⟩,
    ⟨by decide,
      ((request_ctx_allowlist_copy_c4 _ _ "x-budibase-api-key").2 (by decide)).trans
        (by decide)⟩⟩

/-- C5: the three supported header-input shapes describing one multiset of
name/value pairs normalize to equivalent containers: permuting a pair-list
input permutes the built container (same names and values with the same
multiplicities), a plain-mapping input with its (necessarily unique) keys
builds the same container as the pair-list, and a pre-built container
passes through normalization unchanged. -/
theorem buildRequest_header_shapes_c5 (l l2 : List (String × String)) :
    (l.Perm l2 →
      (ensureHeadersIsObject (some (.pairs l))).Perm
        (ensureHeadersIsObject (some (.pairs l2)))) ∧
    ((l.map Prod.fst).Nodup →
      ensureHeadersIsObject (some (.record l)) =
        ensureHeadersIsObject (some (.pairs l))) ∧
    ensureHeadersIsObject (some (.hdrs (ensureHeadersIsObject (some (.pairs l))))) =
      ensureHeadersIsObject (some (.pairs l)) := by
  refine ⟨?_, fun _ => rfl, rfl⟩
  intro hp
  have e1 : ensureHeadersIsObject (some (.pairs l)) =
      l.map (fun kv => (hname kv.1, kv.2)) := by
    have e : ensureHeadersIsObject (some (.pairs l)) =
        l.foldl (fun acc kv => happend acc kv.1 kv.2) [] := rfl
    rw [e, foldl_happend_eq]
    simp
  have e2 : ensureHeadersIsObject (some (.pairs l2)) =
      l2.map (fun kv => (hname kv.1, kv.2)) := by
    have e : ensureHeadersIsObject (some (.pairs l2)) =
        l2.foldl (fun acc kv => happend acc kv.1 kv.2) [] := rfl
    rw [e, foldl_happend_eq]
    simp
  rw [e1, e2]
  exact hp.map _

theorem buildRequest_header_shapes_c5_witness :
    ([("A", "1"), ("b", "2")].Perm [("b", "2"), ("A", "1")] ∧
      (ensureHeadersIsObject (some (.pairs [("A", "1"), ("b", "2")]))).Perm
        (ensureHeadersIsObject (some (.pairs [("b", "2"), ("A", "1")])))) ∧
    (([("A", "1"), ("b", "2")].map Prod.fst).Nodup ∧
      ensureHeadersIsObject (some (.record [("A", "1"), ("b", "2")])) =
        ensureHeadersIsObject (some (.pairs [("A", "1"), ("b", "2")]))) ∧
    ensureHeadersIsObject
        (some (.hdrs (ensureHeadersIsObject (some (.pairs [("A", "1"), ("b", "2")]))))) =
      ensureHeadersIsObject (some (.pairs [("A", "1"), ("b", "2")])) :=
  ⟨⟨by decide, (buildRequest_header_shapes_c5 [("A", "1"), ("b", "2")]
      [("b", "2"), ("A", "1")]).1 (by decide)⟩,
    ⟨by decide, (buildRequest_header_shapes_c5 [("A", "1"), ("b", "2")]
        [("b", "2"), ("A", "1")]).2.1 (by decide)⟩,
    (buildRequest_header_shapes_c5 [("A", "1"), ("b", "2")]
        [("b", "2"), ("A", "1")]).2.2⟩

/-- C8: `request` terminates normally on every input — each supported
header shape is normalized (to the closed form below, so malformed or
mixed-case entries are tolerated rather than rejected), and for any body
value the built descriptor's body is either absent or serialized text; no
input reaches a failure. -/
theorem request_total_normalization_c8 (amb : Ambient) (r : ReqInit) :
    (ensureHeadersIsObject r.headers =
      match r.headers with
      | none => []
      | some (.hdrs h) => h
      | some (.pairs l) => l.map (fun kv => (hname kv.1, kv.2))
      | some (.record l) => l.map (fun kv => (hname kv.1, kv.2))) ∧
    ((request amb r).body = none ∨
      ∃ s, (request amb r).body = some (Json.str s)) := by
  constructor
  · match r.headers with
    | none => rfl
    | some (.hdrs h) => rfl
    | some (.pairs l) =>
      have e : ensureHeadersIsObject (some (.pairs l)) =
          l.foldl (fun acc kv => happend acc kv.1 kv.2) [] := rfl
      rw [e, foldl_happend_eq]
      simp
    | some (.record l) =>
      have e : ensureHeadersIsObject (some (.record l)) =
          l.foldl (fun acc kv => happend acc kv.1 kv.2) [] := rfl
      rw [e, foldl_happend_eq]
      simp
  · dsimp only [request]
    cases r.body with
    | none => exact Or.inl rfl
    | some bd =>
      unfold bodyStep
      cases bd with
      | null => exact Or.inl rfl
      | bool b => cases b <;> exact Or.inl rfl
      | num n =>
        dsimp only [bodyTruthy, bodyKeysLen]
        rw [show ((0 : Nat) != 0) = false from rfl, Bool.and_false]
        exact Or.inl rfl
      | str s =>
        dsimp only
        split
        · exact Or.inr ⟨s, rfl⟩
        · exact Or.inl rfl
      | arr xs =>
        dsimp only
        split
        · exact Or.inr ⟨Json.serialize (Json.arr xs), rfl⟩
        · exact Or.inl rfl
      | obj kvs =>
        dsimp only
        split
        · exact Or.inr ⟨Json.serialize (Json.obj kvs), rfl⟩
        · exact Or.inl rfl

example : Json.parse "\x7b\"message\": \"not found\"\x7d" =
    some (.obj (.cons "message" (.str "not found") .nil)) := by decide

example : Json.serialize (.obj (.cons "id" (.num 1) .nil)) = "\x7b\"id\":1\x7d" := by decide

example :
    checkResponse ⟨404, [("content-type", "application/json")],
      "\x7b\"message\": \"not found\"\x7d"⟩ "get user" none
      = .throwMsg "Unable to get user - not found" := by decide

example :
    checkResponse ⟨200, [("content-type", "application/json")], "\x7b\"id\": 1\x7d"⟩
      "get user" (some ()) = .ok (.obj (.cons "id" (.num 1) .nil)) := by decide

end WorkerRequests
